import Mathlib

/-!
Verification development for the barter trading-engine core.

Shallow embedding conventions:
* `f64` values are embedded as exact rationals (`ℚ`), except in the streaming
  statistics module where square roots force the reals (`ℝ`).  `f64` NaN is not
  representable in either embedding; claims restricted to non-NaN inputs are
  stated without that side condition.
* Rust `Option` is Lean `Option`; fallible functions returning
  `Result<T, E>` are embedded as `Except E T`.
* `Uuid` is embedded as an opaque token (`ℕ`); `DateTime<Utc>` as `ℤ`.
* `HashMap<Decision, SignalStrength>` is embedded as an association list over
  the four-element `Decision` enum; `insert` replaces any existing binding and
  otherwise appends, and `is_empty` is emptiness of the list, matching the
  `HashMap` operations the source uses (`insert`, `is_empty`, key lookup).
* Types whose defining module is not part of the analysed sources
  (`strategy/signal.rs`, `data/market.rs`, the error enums,
  `statistic/algorithm.rs`, `engine/trader.rs`) are modelled from the
  specification; each such definition is marked `Modelled from the spec:`.
-/

namespace Barter

/-- Modelled from the spec: `Decision`: one of Long, CloseLong, Short,
CloseShort (`strategy/signal.rs` is not among the sources). -/
inductive Decision where
| Long
| CloseLong
| Short
| CloseShort
deriving DecidableEq, Repr

/-- Modelled from the spec: `MarketMeta`: { close_price, timestamp } snapshot
propagated through Signal → Order → Fill (`data/market.rs` is not among the
sources; field names follow the construction site in `strategy/strategy.rs`). -/
structure MarketMeta where
  close : ℚ
  timestamp : ℤ
deriving DecidableEq, Repr

/-- Modelled from the spec: OHLCV bar of a `MarketEvent`. -/
structure Bar where
  open_ : ℚ
  high : ℚ
  low : ℚ
  close : ℚ
  volume : ℚ
  timestamp : ℤ
deriving DecidableEq, Repr

/-- Modelled from the spec: `MarketEvent`: { trace_id, timestamp, exchange,
symbol, bar } (`data/market.rs` is not among the sources). -/
structure MarketEvent where
  event_type : String
  trace_id : ℕ
  timestamp : ℤ
  exchange : String
  symbol : String
  bar : Bar
deriving DecidableEq, Repr

/-- Fee amount as f64 (`src/execution/fill.rs`), embedded as `ℚ`. -/
abbrev FeeAmount := ℚ

/-- All potential fees incurred by a `FillEvent` (`src/execution/fill.rs`). -/
structure Fees where
  exchange : FeeAmount
  slippage : FeeAmount
  network : FeeAmount
deriving DecidableEq, Repr

/-- `Fees::calculate_total_fees` (`src/execution/fill.rs` lines 61-66):
`self.exchange + self.network + self.slippage`. -/
def Fees.calculate_total_fees (f : Fees) : ℚ :=
  f.exchange + f.network + f.slippage

/-- Modelled from the spec: error kind `Execution` with variant
`BuilderIncomplete` (`execution/error.rs` is not among the sources; the
variant name is taken from its use in `FillEventBuilder::build`). -/
inductive ExecutionError where
| BuilderIncomplete
deriving DecidableEq, Repr

/-- Modelled from the spec: error kind `Portfolio` with variant
`BuilderIncomplete` (`portfolio/error.rs` is not among the sources; the
variant name is taken from its use in `OrderEventBuilder::build`). -/
inductive PortfolioError where
| BuilderIncomplete
deriving DecidableEq, Repr

/-- Modelled from the spec: error kind `Engine` with variant
`BuilderIncomplete` (`engine/error.rs` is not among the sources; the variant
name is taken from its use in `EngineBuilder::build`). -/
inductive EngineError where
| BuilderIncomplete
deriving DecidableEq, Repr

/-- `Option::ok_or`: `Some(v).ok_or(e) = Ok(v)`, `None.ok_or(e) = Err(e)`. -/
def okOr {α ε : Type} (o : Option α) (e : ε) : Except ε α :=
  match o with
  | some a => Except.ok a
  | none => Except.error e

/-- `FillEvent` (`src/execution/fill.rs` lines 10-22). -/
structure FillEvent where
  event_type : String
  trace_id : ℕ
  timestamp : ℤ
  exchange : String
  symbol : String
  market_meta : MarketMeta
  decision : Decision
  quantity : ℚ
  fill_value_gross : ℚ
  fees : Fees
deriving DecidableEq, Repr

/-- `FillEvent::EVENT_TYPE` (`src/execution/fill.rs` line 42). -/
def FillEvent.EVENT_TYPE : String := "FillEvent"

/-- `FillEventBuilder` (`src/execution/fill.rs` lines 72-83). -/
structure FillEventBuilder where
  trace_id : Option ℕ
  timestamp : Option ℤ
  exchange : Option String
  symbol : Option String
  market_meta : Option MarketMeta
  decision : Option Decision
  quantity : Option ℚ
  fill_value_gross : Option ℚ
  fees : Option Fees
deriving DecidableEq, Repr

/-- `FillEventBuilder::new` = `Self::default()`: every field `None`. -/
def FillEventBuilder.new : FillEventBuilder :=
  { trace_id := none, timestamp := none, exchange := none, symbol := none,
    market_meta := none, decision := none, quantity := none,
    fill_value_gross := none, fees := none }

/- The Rust setter methods share their field's name; Lean reserves that name
for the projection, so each setter is embedded as `set_<field>`. -/

/-- `FillEventBuilder::trace_id` setter (`src/execution/fill.rs` lines 90-95). -/
def FillEventBuilder.set_trace_id (b : FillEventBuilder) (value : ℕ) : FillEventBuilder :=
  { b with trace_id := some value }

/-- `FillEventBuilder::timestamp` setter (`src/execution/fill.rs` lines 97-102). -/
def FillEventBuilder.set_timestamp (b : FillEventBuilder) (value : ℤ) : FillEventBuilder :=
  { b with timestamp := some value }

/-- `FillEventBuilder::exchange` setter (`src/execution/fill.rs` lines 104-109). -/
def FillEventBuilder.set_exchange (b : FillEventBuilder) (value : String) : FillEventBuilder :=
  { b with exchange := some value }

/-- `FillEventBuilder::symbol` setter (`src/execution/fill.rs` lines 111-116).
The source body is `Self { exchange: Some(value), ..self }` — it assigns the
`exchange` field, not `symbol`; this embedding reproduces that faithfully. -/
def FillEventBuilder.set_symbol (b : FillEventBuilder) (value : String) : FillEventBuilder :=
  { b with exchange := some value }

/-- `FillEventBuilder::market_meta` setter (`src/execution/fill.rs` lines 118-123). -/
def FillEventBuilder.set_market_meta (b : FillEventBuilder) (value : MarketMeta) : FillEventBuilder :=
  { b with market_meta := some value }

/-- `FillEventBuilder::decision` setter (`src/execution/fill.rs` lines 125-130). -/
def FillEventBuilder.set_decision (b : FillEventBuilder) (value : Decision) : FillEventBuilder :=
  { b with decision := some value }

/-- `FillEventBuilder::quantity` setter (`src/execution/fill.rs` lines 132-137). -/
def FillEventBuilder.set_quantity (b : FillEventBuilder) (value : ℚ) : FillEventBuilder :=
  { b with quantity := some value }

/-- `FillEventBuilder::fill_value_gross` setter (`src/execution/fill.rs` lines 139-144). -/
def FillEventBuilder.set_fill_value_gross (b : FillEventBuilder) (value : ℚ) : FillEventBuilder :=
  { b with fill_value_gross := some value }

/-- `FillEventBuilder::fees` setter (`src/execution/fill.rs` lines 146-151). -/
def FillEventBuilder.set_fees (b : FillEventBuilder) (value : Fees) : FillEventBuilder :=
  { b with fees := some value }

/-- `FillEventBuilder::build` (`src/execution/fill.rs` lines 153-176):
each field is extracted with `ok_or(ExecutionError::BuilderIncomplete)?`. -/
def FillEventBuilder.build (b : FillEventBuilder) : Except ExecutionError FillEvent := do
  let trace_id ← okOr b.trace_id ExecutionError.BuilderIncomplete
  let timestamp ← okOr b.timestamp ExecutionError.BuilderIncomplete
  let exchange ← okOr b.exchange ExecutionError.BuilderIncomplete
  let symbol ← okOr b.symbol ExecutionError.BuilderIncomplete
  let market_meta ← okOr b.market_meta ExecutionError.BuilderIncomplete
  let decision ← okOr b.decision ExecutionError.BuilderIncomplete
  let quantity ← okOr b.quantity ExecutionError.BuilderIncomplete
  let fill_value_gross ← okOr b.fill_value_gross ExecutionError.BuilderIncomplete
  let fees ← okOr b.fees ExecutionError.BuilderIncomplete
  pure { event_type := FillEvent.EVENT_TYPE, trace_id := trace_id,
         timestamp := timestamp, exchange := exchange, symbol := symbol,
         market_meta := market_meta, decision := decision,
         quantity := quantity, fill_value_gross := fill_value_gross,
         fees := fees }

/-- `OrderType` (`src/portfolio/order.rs` lines 44-49). -/
inductive OrderType where
| Market
| Limit
| Bracket
deriving DecidableEq, Repr

/-- `OrderEvent` (`src/portfolio/order.rs` lines 10-20). -/
structure OrderEvent where
  trace_id : ℕ
  timestamp : ℤ
  exchange : String
  symbol : String
  close : ℚ
  decision : Decision
  quantity : ℚ
  order_type : OrderType
deriving DecidableEq, Repr

/-- `OrderEventBuilder` (`src/portfolio/order.rs` lines 57-66). -/
structure OrderEventBuilder where
  trace_id : Option ℕ
  timestamp : Option ℤ
  exchange : Option String
  symbol : Option String
  close : Option ℚ
  decision : Option Decision
  quantity : Option ℚ
  order_type : Option OrderType
deriving DecidableEq, Repr

/-- `OrderEventBuilder::new` (`src/portfolio/order.rs` lines 69-80): every
field `None`. -/
def OrderEventBuilder.new : OrderEventBuilder :=
  { trace_id := none, timestamp := none, exchange := none, symbol := none,
    close := none, decision := none, quantity := none, order_type := none }

/-- `OrderEventBuilder::trace_id` setter (`src/portfolio/order.rs` lines 82-85). -/
def OrderEventBuilder.set_trace_id (b : OrderEventBuilder) (value : ℕ) : OrderEventBuilder :=
  { b with trace_id := some value }

/-- `OrderEventBuilder::timestamp` setter (`src/portfolio/order.rs` lines 87-90). -/
def OrderEventBuilder.set_timestamp (b : OrderEventBuilder) (value : ℤ) : OrderEventBuilder :=
  { b with timestamp := some value }

/-- `OrderEventBuilder::exchange` setter (`src/portfolio/order.rs` lines 92-95). -/
def OrderEventBuilder.set_exchange (b : OrderEventBuilder) (value : String) : OrderEventBuilder :=
  { b with exchange := some value }

/-- `OrderEventBuilder::symbol` setter (`src/portfolio/order.rs` lines 97-100). -/
def OrderEventBuilder.set_symbol (b : OrderEventBuilder) (value : String) : OrderEventBuilder :=
  { b with symbol := some value }

/-- `OrderEventBuilder::close` setter (`src/portfolio/order.rs` lines 102-105). -/
def OrderEventBuilder.set_close (b : OrderEventBuilder) (value : ℚ) : OrderEventBuilder :=
  { b with close := some value }

/-- `OrderEventBuilder::decision` setter (`src/portfolio/order.rs` lines 107-110). -/
def OrderEventBuilder.set_decision (b : OrderEventBuilder) (value : Decision) : OrderEventBuilder :=
  { b with decision := some value }

/-- `OrderEventBuilder::quantity` setter (`src/portfolio/order.rs` lines 112-115). -/
def OrderEventBuilder.set_quantity (b : OrderEventBuilder) (value : ℚ) : OrderEventBuilder :=
  { b with quantity := some value }

/-- `OrderEventBuilder::order_type` setter (`src/portfolio/order.rs` lines 117-120). -/
def OrderEventBuilder.set_order_type (b : OrderEventBuilder) (value : OrderType) : OrderEventBuilder :=
  { b with order_type := some value }

/-- `OrderEventBuilder::build` (`src/portfolio/order.rs` lines 122-155):
`if let (Some .., .., Some ..)` on the 8-tuple of fields, else
`Err(BuilderIncomplete())`. -/
def OrderEventBuilder.build (b : OrderEventBuilder) : Except PortfolioError OrderEvent :=
  match b.trace_id, b.timestamp, b.exchange, b.symbol, b.close, b.decision,
      b.quantity, b.order_type with
  | some trace_id, some timestamp, some exchange, some symbol, some close,
      some decision, some quantity, some order_type =>
    Except.ok { trace_id := trace_id, timestamp := timestamp,
                exchange := exchange, symbol := symbol, close := close,
                decision := decision, quantity := quantity,
                order_type := order_type }
  | _, _, _, _, _, _, _, _ => Except.error PortfolioError.BuilderIncomplete

/-- `Engine` state the builder produces (`src/engine/mod.rs` lines 100-123).
The channel, portfolio and trader collections are generic here because the
Rust struct is generic over its component capabilities. -/
structure Engine (CommandRx Portfolio Traders CommandTxs : Type) where
  engine_id : ℕ
  command_rx : CommandRx
  portfolio : Portfolio
  traders : Traders
  trader_command_txs : CommandTxs
deriving DecidableEq, Repr

/-- `EngineBuilder` (`src/engine/mod.rs` lines 322-337). -/
structure EngineBuilder (CommandRx Portfolio Traders CommandTxs : Type) where
  engine_id : Option ℕ
  command_rx : Option CommandRx
  portfolio : Option Portfolio
  traders : Option Traders
  trader_command_txs : Option CommandTxs
deriving DecidableEq, Repr

/-- `EngineBuilder::new` (`src/engine/mod.rs` lines 348-356): every field
`None`. -/
def EngineBuilder.new {A B C D : Type} : EngineBuilder A B C D :=
  { engine_id := none, command_rx := none, portfolio := none,
    traders := none, trader_command_txs := none }

/-- `EngineBuilder::engine_id` setter (`src/engine/mod.rs` lines 358-363). -/
def EngineBuilder.set_engine_id {A B C D : Type} (b : EngineBuilder A B C D) (value : ℕ) :
    EngineBuilder A B C D :=
  { b with engine_id := some value }

/-- `EngineBuilder::command_rx` setter (`src/engine/mod.rs` lines 365-370). -/
def EngineBuilder.set_command_rx {A B C D : Type} (b : EngineBuilder A B C D) (value : A) :
    EngineBuilder A B C D :=
  { b with command_rx := some value }

/-- `EngineBuilder::portfolio` setter (`src/engine/mod.rs` lines 372-377). -/
def EngineBuilder.set_portfolio {A B C D : Type} (b : EngineBuilder A B C D) (value : B) :
    EngineBuilder A B C D :=
  { b with portfolio := some value }

/-- `EngineBuilder::traders` setter (`src/engine/mod.rs` lines 379-384). -/
def EngineBuilder.set_traders {A B C D : Type} (b : EngineBuilder A B C D) (value : C) :
    EngineBuilder A B C D :=
  { b with traders := some value }

/-- `EngineBuilder::trader_command_txs` setter (`src/engine/mod.rs` lines 386-391). -/
def EngineBuilder.set_trader_command_txs {A B C D : Type} (b : EngineBuilder A B C D) (value : D) :
    EngineBuilder A B C D :=
  { b with trader_command_txs := some value }

/-- `EngineBuilder::build` (`src/engine/mod.rs` lines 394-408): each field is
extracted with `ok_or(EngineError::BuilderIncomplete)?`. -/
def EngineBuilder.build {A B C D : Type} (b : EngineBuilder A B C D) :
    Except EngineError (Engine A B C D) := do
  let engine_id ← okOr b.engine_id EngineError.BuilderIncomplete
  let command_rx ← okOr b.command_rx EngineError.BuilderIncomplete
  let portfolio ← okOr b.portfolio EngineError.BuilderIncomplete
  let traders ← okOr b.traders EngineError.BuilderIncomplete
  let trader_command_txs ← okOr b.trader_command_txs EngineError.BuilderIncomplete
  pure { engine_id := engine_id, command_rx := command_rx,
         portfolio := portfolio, traders := traders,
         trader_command_txs := trader_command_txs }

/-- `StrategyError` (`src/strategy/error.rs`). -/
inductive StrategyError where
| BuilderIncomplete
deriving DecidableEq, Repr

/-- Signal strength (an `f32` in the source), embedded as `ℚ`. -/
abbrev SignalStrength := ℚ

/-- The `HashMap<Decision, SignalStrength>` of a signal, embedded as an
association list with at most one binding per key. -/
abbrev SignalsMap := List (Decision × SignalStrength)

/-- Key lookup in a signals map (`HashMap` get / `contains_key` semantics). -/
def lookupSignal : SignalsMap → Decision → Option SignalStrength
  | [], _ => none
  | p :: rest, k => if p.1 = k then some p.2 else lookupSignal rest k

/-- `HashMap::insert` semantics: replace the binding when the key is present,
otherwise add a new binding. -/
def insertSignal (m : SignalsMap) (k : Decision) (v : SignalStrength) : SignalsMap :=
  if (lookupSignal m k).isSome then
    m.map fun p => if p.1 = k then (k, v) else p
  else
    m ++ [(k, v)]

/-- Modelled from the spec: `SignalEvent`: { trace_id, timestamp, exchange,
symbol, market_meta, signals } (`strategy/signal.rs` is not among the
sources; field names follow the construction site in
`strategy/strategy.rs`). -/
structure SignalEvent where
  event_type : String
  trace_id : ℕ
  timestamp : ℤ
  exchange : String
  symbol : String
  market_meta : MarketMeta
  signals : SignalsMap
deriving DecidableEq, Repr

/-- Modelled from the spec: `SignalEvent::EVENT_TYPE` (`strategy/signal.rs`
is not among the sources). -/
def SignalEvent.EVENT_TYPE : String := "SignalEvent"

/-- `RSIStrategy::calculate_signal_strength` (`src/strategy/strategy.rs`
lines 100-103): constantly `1.0`. -/
def calculate_signal_strength : SignalStrength := 1

/-- `RSIStrategy::generate_signals_map` (`src/strategy/strategy.rs`
lines 77-98): insert Long when rsi < 40, CloseLong when rsi > 60, Short when
rsi > 60, CloseShort when rsi < 40, in that order. -/
def generate_signals_map (rsi : ℚ) : SignalsMap :=
  let signals : SignalsMap := []
  let signals := if rsi < 40 then insertSignal signals Decision.Long calculate_signal_strength else signals
  let signals := if rsi > 60 then insertSignal signals Decision.CloseLong calculate_signal_strength else signals
  let signals := if rsi > 60 then insertSignal signals Decision.Short calculate_signal_strength else signals
  let signals := if rsi < 40 then insertSignal signals Decision.CloseShort calculate_signal_strength else signals
  signals

/-- `RSIStrategy::generate_signal` (`src/strategy/strategy.rs` lines 31-58).
The `rsi` argument is the value `self.rsi.next(&market.bar)` returned by the
external `ta` crate indicator (an out-of-scope collaborator), and `now` is
the `Utc::now()` timestamp taken when the signal is built. -/
def generate_signal (rsi : ℚ) (now : ℤ) (market : MarketEvent) :
    Except StrategyError (Option SignalEvent) :=
  let signals := generate_signals_map rsi
  if signals.isEmpty then
    Except.ok none
  else
    Except.ok (some
      { event_type := SignalEvent.EVENT_TYPE
        trace_id := market.trace_id
        timestamp := now
        exchange := market.exchange
        symbol := market.symbol
        market_meta := { close := market.bar.close, timestamp := market.bar.timestamp }
        signals := signals })

/-- `Range` (`src/statistic/dispersion.rs` lines 45-60).  In the statistic
module f64 is embedded as `ℝ`, because `Dispersion::update` takes a square
root. -/
structure Range where
  activated : Bool
  highest : ℝ
  lowest : ℝ

/-- `Range`'s `Default` impl (`src/statistic/dispersion.rs` lines 52-60):
deactivated with both bounds 0. -/
def Range.default : Range :=
  { activated := false, highest := 0, lowest := 0 }

/-- `Range::update` (`src/statistic/dispersion.rs` lines 73-90). -/
noncomputable def Range.update (r : Range) (new_value : ℝ) : Range :=
  match r.activated with
  | true =>
    { r with
      highest := if new_value > r.highest then new_value else r.highest
      lowest := if new_value < r.lowest then new_value else r.lowest }
  | false =>
    { activated := true, highest := new_value, lowest := new_value }

/-- `Range::calculate` (`src/statistic/dispersion.rs` lines 94-96). -/
noncomputable def Range.calculate (r : Range) : ℝ :=
  r.highest - r.lowest

/-- Modelled from the spec: `WelfordOnline::calculate_recurrence_relation_m`
(`statistic/algorithm.rs` is not among the sources):
M2ₙ = M2ₙ₋₁ + (xₙ − μₙ₋₁)(xₙ − μₙ). -/
noncomputable def WelfordOnline.calculate_recurrence_relation_m
    (prev_m prev_mean new_value new_mean : ℝ) : ℝ :=
  prev_m + (new_value - prev_mean) * (new_value - new_mean)

/-- Modelled from the spec: `WelfordOnline::calculate_population_variance`
(`statistic/algorithm.rs` is not among the sources): Variance = M2ₙ / n. -/
noncomputable def WelfordOnline.calculate_population_variance
    (recurrence_relation_m : ℝ) (value_count : ℕ) : ℝ :=
  recurrence_relation_m / value_count

/-- Modelled from the spec: the Welford mean recurrence used by the caller
that feeds `Dispersion::update` (`statistic/algorithm.rs` is not among the
sources): μₙ = μₙ₋₁ + (xₙ − μₙ₋₁)/n. -/
noncomputable def WelfordOnline.calculate_mean (prev_mean new_value : ℝ) (value_count : ℕ) : ℝ :=
  prev_mean + (new_value - prev_mean) / value_count

/-- `Dispersion` (`src/statistic/dispersion.rs` lines 4-10). -/
structure Dispersion where
  range : Range
  recurrence_relation_m : ℝ
  variance : ℝ
  std_dev : ℝ

/-- `Dispersion`'s `Default` impl (`src/statistic/dispersion.rs` lines 12-21). -/
def Dispersion.default : Dispersion :=
  { range := Range.default, recurrence_relation_m := 0, variance := 0,
    std_dev := 0 }

/-- `Dispersion::update` (`src/statistic/dispersion.rs` lines 26-40): update
the range, the Welford recurrence M, the population variance, and the
standard deviation (`Real.sqrt` embeds `f64::sqrt`; the argument is never
negative on the reachable states used below). -/
noncomputable def Dispersion.update (d : Dispersion)
    (prev_mean new_mean new_value : ℝ) (value_count : ℕ) : Dispersion :=
  let m := WelfordOnline.calculate_recurrence_relation_m
    d.recurrence_relation_m prev_mean new_value new_mean
  let variance := WelfordOnline.calculate_population_variance m value_count
  { range := d.range.update new_value
    recurrence_relation_m := m
    variance := variance
    std_dev := Real.sqrt variance }

/-- State of the streaming Welford computation: dataset count, running mean
and the dispersion aggregates. -/
structure WelfordState where
  count : ℕ
  mean : ℝ
  dispersion : Dispersion

/-- Modelled from the spec: initial streaming state — no samples, mean 0,
default dispersion. -/
def welfordInit : WelfordState :=
  { count := 0, mean := 0, dispersion := Dispersion.default }

/-- Modelled from the spec: feeding one value to the streaming statistics —
increment the count, compute the new mean with the Welford recurrence, then
call `Dispersion::update` with the previous mean, new mean, new value and
count (spec section 4.4). -/
noncomputable def welfordStep (s : WelfordState) (x : ℝ) : WelfordState :=
  let count := s.count + 1
  let new_mean := WelfordOnline.calculate_mean s.mean x count
  { count := count
    mean := new_mean
    dispersion := s.dispersion.update s.mean new_mean x count }

/-- The whole streaming run over a dataset. -/
noncomputable def welfordRun (xs : List ℝ) : WelfordState :=
  xs.foldl welfordStep welfordInit

/-- Naive (batch) mean of a dataset, for the refinement comparison. -/
noncomputable def naiveMean (xs : List ℝ) : ℝ :=
  xs.sum / xs.length

/-- Naive (batch) population variance of a dataset, for the refinement
comparison. -/
noncomputable def naivePopVariance (xs : List ℝ) : ℝ :=
  ((xs.map fun x => (x - naiveMean xs) ^ 2).sum) / xs.length

/-- Closed form of the running mean in terms of count and running sum. -/
noncomputable def meanOf (n : ℕ) (s1 : ℝ) : ℝ :=
  if n = 0 then 0 else s1 / n

/-- Closed form of the Welford M2 in terms of count, running sum and running
sum of squares. -/
noncomputable def m2Of (n : ℕ) (s1 s2 : ℝ) : ℝ :=
  if n = 0 then 0 else s2 - s1 ^ 2 / n

/-- Modelled from the spec: `Market` = (exchange, symbol) pair
(`crate::Market` is declared outside the analysed sources). -/
structure Market where
  exchange : String
  symbol : String
deriving DecidableEq, Repr

/-- Modelled from the spec: `Market::market_id` = \"{exchange}_{symbol}\"
(spec section 6; the defining module is not among the sources). -/
def Market.market_id (m : Market) : String :=
  m.exchange ++ "_" ++ m.symbol

/-- `Command` (`src/engine/mod.rs` lines 53-68).  The oneshot reply sender
carried by `FetchOpenPositions` is not modelled. -/
inductive Command where
| FetchOpenPositions
| Terminate (msg : String)
| ExitAllPositions
| ExitPosition (market : Market)
deriving DecidableEq, Repr

/-- An observable action of the engine toward its traders: a send on one
trader's command channel, or a sleep. -/
inductive EngineAction where
| sendCommand (target : Market) (command : Command)
| sleepSecs (secs : ℕ)
deriving DecidableEq, Repr

/-- `Engine::exit_all_positions` (`src/engine/mod.rs` lines 288-298): send
`Command::ExitPosition(market)` on every trader command channel.  The
`trader_command_txs` map is modelled as its list of markets (`HashMap`
iteration order is arbitrary, so an arbitrary list order is faithful). -/
def exit_all_positions (trader_command_txs : List Market) : List EngineAction :=
  trader_command_txs.map fun market =>
    EngineAction.sendCommand market (Command.ExitPosition market)

/-- `Engine::terminate_traders` (`src/engine/mod.rs` lines 270-285): first
exit all positions, then sleep one second, then send `Command::Terminate` to
every trader. -/
def terminate_traders (trader_command_txs : List Market) (message : String) :
    List EngineAction :=
  exit_all_positions trader_command_txs
    ++ [EngineAction.sleepSecs 1]
    ++ trader_command_txs.map fun market =>
        EngineAction.sendCommand market (Command.Terminate message)

/-- `Engine::exit_position` (`src/engine/mod.rs` lines 302-318): forward
ExitPosition to the market's trader when known, otherwise only warn. -/
def exit_position (trader_command_txs : List Market) (market : Market) :
    List EngineAction :=
  if market ∈ trader_command_txs then
    [EngineAction.sendCommand market (Command.ExitPosition market)]
  else
    []

/-- One dispatch of the `Engine::run` command loop (`src/engine/mod.rs`
lines 167-188): the actions sent and whether the loop breaks afterwards. -/
def handleCommand (trader_command_txs : List Market) :
    Command → List EngineAction × Bool
| Command.FetchOpenPositions => ([], false)
| Command.Terminate message => (terminate_traders trader_command_txs message, true)
| Command.ExitPosition market => (exit_position trader_command_txs market, false)
| Command.ExitAllPositions => (exit_all_positions trader_command_txs, false)

/-- Recognises a send of `Command::Terminate`. -/
def isTerminateSend : EngineAction → Bool
| EngineAction.sendCommand _ (Command.Terminate _) => true
| _ => false

/-- Recognises a send of `Command::ExitPosition`. -/
def isExitPositionSend : EngineAction → Bool
| EngineAction.sendCommand _ (Command.ExitPosition _) => true
| _ => false

/-- Result of `Mutex::lock`: `Ok(guard)`, or a `PoisonError` whose
`into_inner` still yields the guarded value. -/
inductive LockResult (π : Type) where
| ok (portfolio : π)
| poisoned (portfolio : π)

/-- `self.portfolio.lock().unwrap_or_else(|err| err.into_inner())`
(`src/engine/mod.rs` lines 193-203): both outcomes proceed with the inner
portfolio; the poisoned branch additionally logs a warning. -/
def lockRecover {π : Type} : LockResult π → π
| LockResult.ok portfolio => portfolio
| LockResult.poisoned portfolio => portfolio

/-- A per-market line of the final summary: the statistic printed via
`statistic.print()`, or the warning emitted when `get_statistics` failed. -/
inductive SummaryOutput (St : Type) where
| printed (mid : String) (statistic : St)
| warned (mid : String)

/-- The market id a summary line refers to. -/
def summaryMarketId {St : Type} : SummaryOutput St → String
| SummaryOutput.printed mid _ => mid
| SummaryOutput.warned mid => mid

/-- The engine's post-loop summary phase (`src/engine/mod.rs` lines 192-219):
recover the portfolio from the (possibly poisoned) mutex, then for every
market key of `trader_command_txs` call `get_statistics(market_id)` and
print the statistic, or warn on a repository error. -/
def engineFinalise {π St ε : Type} (lock : LockResult π)
    (trader_command_txs : List Market)
    (get_statistics : π → String → Except ε St) :
    π × List (SummaryOutput St) :=
  let portfolio := lockRecover lock
  (portfolio,
    trader_command_txs.map fun market =>
      match get_statistics portfolio market.market_id with
      | Except.ok statistic => SummaryOutput.printed market.market_id statistic
      | Except.error _ => SummaryOutput.warned market.market_id)

/-- One input to the `tokio::select!` of the `Engine::run` loop
(`src/engine/mod.rs` lines 160-190): the traders-stopped notification, or a
command-channel receive (`none` = all command senders dropped). -/
inductive LoopInput where
| tradersStopped
| command (received : Option Command)

/-- Which loop inputs make `Engine::run` break out of its command loop: the
stopped notification, a received `Terminate`, or a dropped sender. -/
def loopBreaks : LoopInput → Bool
| LoopInput.tradersStopped => true
| LoopInput.command none => true
| LoopInput.command (some (Command.Terminate _)) => true
| LoopInput.command (some _) => false

/-- `Engine::run`, abstracted to its loop-exit condition plus the
finalisation phase: if some input breaks the loop, the summary phase runs on
the recovered portfolio; with no breaking input the loop never exits and no
summary is produced. -/
def engineRun {π St ε : Type} (inputs : List LoopInput) (lock : LockResult π)
    (trader_command_txs : List Market)
    (get_statistics : π → String → Except ε St) :
    Option (π × List (SummaryOutput St)) :=
  if inputs.any loopBreaks then
    some (engineFinalise lock trader_command_txs get_statistics)
  else
    none

/-- `ExchangeName` (`src/data/handler/live.rs` line 33). -/
inductive ExchangeName where
| Binance
deriving DecidableEq, Repr

/-- `Config` of the live handler (`src/data/handler/live.rs` lines 25-30);
the `ClientConfig` of the external exchange client is abstracted. -/
structure LiveConfig (ClientConfig : Type) where
  client : ClientConfig
  exchange : ExchangeName
  symbol : String
  interval : String

/-- `LiveCandleHandler` (`src/data/handler/live.rs` lines 37-43); the candle
stream is abstracted as a type parameter. -/
structure LiveCandleHandler (Stream : Type) where
  exchange : ExchangeName
  symbol : String
  interval : String
  data_stream : Stream
  can_continue : Bool

/-- `Continuer::should_continue` for `LiveCandleHandler`
(`src/data/handler/live.rs` lines 45-49): returns `can_continue`. -/
def LiveCandleHandler.should_continue {Stream : Type}
    (h : LiveCandleHandler Stream) : Bool :=
  h.can_continue

/-- `LiveCandleHandler::new` (`src/data/handler/live.rs` lines 71-91):
builds the exchange client and its candle stream (abstracted here as the
`data_stream` argument) and returns the handler with `can_continue: false`. -/
def LiveCandleHandler.new {ClientConfig Stream : Type}
    (cfg : LiveConfig ClientConfig) (data_stream : Stream) :
    LiveCandleHandler Stream :=
  { exchange := cfg.exchange, symbol := cfg.symbol, interval := cfg.interval,
    data_stream := data_stream, can_continue := false }

/-- Modelled from the spec: step 1 of the trader loop — "If terminated flag
is set or data source signals done, exit" (spec section 4.2;
`engine/trader.rs` is not among the sources).  The trader consumes market
data only when not terminated and the data source wants to continue. -/
def traderProceeds {Stream : Type} (terminated : Bool)
    (data : LiveCandleHandler Stream) : Bool :=
  !terminated && data.should_continue

end Barter

namespace Barter

/-- C2: for every `Fees` value (all representable values are non-NaN in this
exact-arithmetic embedding), `calculate_total_fees` returns exactly the value
`exchange + slippage + network`. -/
theorem fees_calculate_total_fees_eq_sum (f : Fees) :
    f.calculate_total_fees = f.exchange + f.slippage + f.network := by
  unfold Fees.calculate_total_fees
  ring

/-- C1: evaluation of the builders on concrete inputs. `OrderEventBuilder`
and `EngineBuilder` satisfy the claim (all setters once → `Ok` with the
provided fields; a never-provided field → `BuilderIncomplete`), but
`FillEventBuilder` violates it: providing every field exactly once via its
setter still yields `Err(BuilderIncomplete)`, because the `symbol` setter
assigns the `exchange` field and leaves `symbol` as `None`. -/
theorem fillEventBuilder_all_setters_build_incomplete :
    (((((((((FillEventBuilder.new.set_trace_id 7).set_timestamp 3).set_exchange
        "BINANCE").set_symbol "ETH-USD").set_market_meta ⟨100, 5⟩).set_decision
        Decision.Long).set_quantity 1).set_fill_value_gross 100).set_fees
        ⟨1, 2, 3⟩).build = Except.error ExecutionError.BuilderIncomplete
    ∧ (((((((((FillEventBuilder.new.set_trace_id 7).set_timestamp 3).set_exchange
        "BINANCE").set_symbol "ETH-USD").set_market_meta ⟨100, 5⟩).set_decision
        Decision.Long).set_quantity 1).set_fill_value_gross 100).set_fees
        ⟨1, 2, 3⟩).symbol = none
    ∧ (((((((((FillEventBuilder.new.set_trace_id 7).set_timestamp 3).set_exchange
        "BINANCE").set_symbol "ETH-USD").set_market_meta ⟨100, 5⟩).set_decision
        Decision.Long).set_quantity 1).set_fill_value_gross 100).set_fees
        ⟨1, 2, 3⟩).exchange = some "ETH-USD"
    ∧ ((((((((OrderEventBuilder.new.set_trace_id 7).set_timestamp 3).set_exchange
        "BINANCE").set_symbol "ETH-USD").set_close 100).set_decision
        Decision.Long).set_quantity 10).set_order_type OrderType.Market).build
      = Except.ok { trace_id := 7, timestamp := 3, exchange := "BINANCE",
                    symbol := "ETH-USD", close := 100,
                    decision := Decision.Long, quantity := 10,
                    order_type := OrderType.Market }
    ∧ OrderEventBuilder.new.build = Except.error PortfolioError.BuilderIncomplete
    ∧ (((((EngineBuilder.new.set_engine_id 7).set_command_rx (11 : ℕ)).set_portfolio
        (12 : ℕ)).set_traders (13 : ℕ)).set_trader_command_txs (14 : ℕ)).build
      = Except.ok { engine_id := 7, command_rx := 11, portfolio := 12,
                    traders := 13, trader_command_txs := 14 }
    ∧ (EngineBuilder.new (A := ℕ) (B := ℕ) (C := ℕ) (D := ℕ)).build
      = Except.error EngineError.BuilderIncomplete := by
  refine ⟨rfl, rfl, rfl, rfl, rfl, rfl, rfl⟩

/-- Helper: the signals map is one of exactly three values, depending on rsi. -/
lemma generate_signals_map_eq_cases (rsi : ℚ) :
    generate_signals_map rsi = [] ∨
    generate_signals_map rsi = [(Decision.Long, 1), (Decision.CloseShort, 1)] ∨
    generate_signals_map rsi = [(Decision.CloseLong, 1), (Decision.Short, 1)] := by
  by_cases h1 : rsi < 40
  · have h2 : ¬ rsi > 60 := by linarith
    right; left
    simp [generate_signals_map, insertSignal, lookupSignal,
      calculate_signal_strength, h1, h2]
  · by_cases h2 : rsi > 60
    · right; right
      simp [generate_signals_map, insertSignal, lookupSignal,
        calculate_signal_strength, h1, h2]
    · left
      simp [generate_signals_map, h1, h2]

/-- C3: the RSI signals map contains exactly Long and CloseShort when
rsi < 40, exactly CloseLong and Short when rsi > 60, and is empty for rsi in
[40, 60]; and when the map is empty `generate_signal` returns `Ok(None)`. -/
theorem rsi_signals_map_thresholds (rsi : ℚ) :
    (rsi < 40 →
      generate_signals_map rsi = [(Decision.Long, 1), (Decision.CloseShort, 1)]) ∧
    (rsi > 60 →
      generate_signals_map rsi = [(Decision.CloseLong, 1), (Decision.Short, 1)]) ∧
    (40 ≤ rsi → rsi ≤ 60 → generate_signals_map rsi = []) ∧
    (∀ now market, generate_signals_map rsi = [] →
      generate_signal rsi now market = Except.ok none) := by
  refine ⟨?_, ?_, ?_, ?_⟩
  · intro h1
    have h2 : ¬ rsi > 60 := by linarith
    simp [generate_signals_map, insertSignal, lookupSignal,
      calculate_signal_strength, h1, h2]
  · intro h2
    have h1 : ¬ rsi < 40 := by linarith
    simp [generate_signals_map, insertSignal, lookupSignal,
      calculate_signal_strength, h1, h2]
  · intro hlo hhi
    have h1 : ¬ rsi < 40 := by linarith
    have h2 : ¬ rsi > 60 := by linarith
    simp [generate_signals_map, h1, h2]
  · intro now market hempty
    simp [generate_signal, hempty]

/-- C3 witness: the three regimes evaluated at rsi = 20, 70 and 50, and the
empty-map case at a concrete market event. -/
theorem rsi_signals_map_thresholds_witness :
    generate_signals_map 20 = [(Decision.Long, 1), (Decision.CloseShort, 1)] ∧
    generate_signals_map 70 = [(Decision.CloseLong, 1), (Decision.Short, 1)] ∧
    generate_signals_map 50 = [] ∧
    generate_signal 50 0
      { event_type := "MarketEvent", trace_id := 0, timestamp := 0,
        exchange := "BINANCE", symbol := "ETH-USD",
        bar := { open_ := 1, high := 1, low := 1, close := 1, volume := 1,
                 timestamp := 0 } } = Except.ok none := by
  refine ⟨(rsi_signals_map_thresholds 20).1 (by norm_num),
    ((rsi_signals_map_thresholds 70).2).1 (by norm_num),
    (((rsi_signals_map_thresholds 50).2).2).1 (by norm_num) (by norm_num),
    (((rsi_signals_map_thresholds 50).2).2).2 0 _
      ((((rsi_signals_map_thresholds 50).2).2).1 (by norm_num) (by norm_num))⟩

/-- C9: `generate_signal` never returns an error, and every strength stored
in an emitted signal map is exactly 1. -/
theorem generate_signal_never_errs (rsi : ℚ) (now : ℤ) (market : MarketEvent) :
    (∃ r, generate_signal rsi now market = Except.ok r) ∧
    (∀ s, generate_signal rsi now market = Except.ok (some s) →
      ∀ d v, lookupSignal s.signals d = some v → v = 1) := by
  constructor
  · by_cases h : (generate_signals_map rsi).isEmpty
    · exact ⟨none, by simp [generate_signal, h]⟩
    · exact ⟨some
        { event_type := SignalEvent.EVENT_TYPE, trace_id := market.trace_id,
          timestamp := now, exchange := market.exchange,
          symbol := market.symbol,
          market_meta := { close := market.bar.close,
                           timestamp := market.bar.timestamp },
          signals := generate_signals_map rsi },
        by simp [generate_signal, h]⟩
  · intro s hs d v hv
    have hsig : s.signals = generate_signals_map rsi := by
      unfold generate_signal at hs
      by_cases h : (generate_signals_map rsi).isEmpty
      · simp [h] at hs
      · simp [h] at hs
        rw [← hs]
    rw [hsig] at hv
    rcases generate_signals_map_eq_cases rsi with hc | hc | hc <;>
      rw [hc] at hv <;> cases d <;>
      simp [lookupSignal] at hv <;> exact hv.symm

/-- C9 witness: evaluated at rsi = 20 with a concrete market event; the
emitted signal's Long strength is 1. -/
theorem generate_signal_never_errs_witness :
    (∃ r, generate_signal 20 0
      { event_type := "MarketEvent", trace_id := 0, timestamp := 0,
        exchange := "BINANCE", symbol := "ETH-USD",
        bar := { open_ := 1, high := 1, low := 1, close := 1, volume := 1,
                 timestamp := 0 } } = Except.ok r) ∧ (1 : ℚ) = 1 := by
  refine ⟨(generate_signal_never_errs 20 0 _).1,
    (generate_signal_never_errs 20 0
      { event_type := "MarketEvent", trace_id := 0, timestamp := 0,
        exchange := "BINANCE", symbol := "ETH-USD",
        bar := { open_ := 1, high := 1, low := 1, close := 1, volume := 1,
                 timestamp := 0 } }).2
      { event_type := "SignalEvent", trace_id := 0, timestamp := 0,
        exchange := "BINANCE", symbol := "ETH-USD",
        market_meta := { close := 1, timestamp := 0 },
        signals := [(Decision.Long, 1), (Decision.CloseShort, 1)] }
      rfl Decision.Long 1 rfl⟩

/-- C10: the signals map never contains the open-Long and open-Short
decisions simultaneously. -/
theorem signals_map_never_long_and_short (rsi : ℚ) :
    lookupSignal (generate_signals_map rsi) Decision.Long = none ∨
    lookupSignal (generate_signals_map rsi) Decision.Short = none := by
  rcases generate_signals_map_eq_cases rsi with hc | hc | hc <;>
    rw [hc] <;> simp [lookupSignal]

/-- Helper: on an activated range, `update` takes the max/min with the new
value. -/
lemma Range.update_activated (r : Range) (h : r.activated = true) (x : ℝ) :
    r.update x
      = { activated := true, highest := max r.highest x, lowest := min r.lowest x } := by
  obtain ⟨a, hi, lo⟩ := r
  subst h
  have hmax : (if x > hi then x else hi) = max hi x := by
    rcases le_or_lt x hi with h1 | h1
    · rw [if_neg (not_lt.mpr h1), max_eq_left h1]
    · rw [if_pos h1, max_eq_right h1.le]
  have hmin : (if x < lo then x else lo) = min lo x := by
    rcases le_or_lt lo x with h1 | h1
    · rw [if_neg (not_lt.mpr h1), min_eq_left h1]
    · rw [if_pos h1, min_eq_right h1.le]
  simp [Range.update, hmax, hmin]

/-- Helper: folding `Range.update` over a list from an activated range keeps
it activated and folds max/min over the bounds. -/
lemma foldl_range_update_activated (xs : List ℝ) :
    ∀ r : Range, r.activated = true →
      xs.foldl Range.update r
        = { activated := true, highest := xs.foldl max r.highest,
            lowest := xs.foldl min r.lowest } := by
  induction xs with
  | nil =>
    intro r h
    obtain ⟨a, hi, lo⟩ := r
    subst h
    simp
  | cons x xs ih =>
    intro r h
    simp only [List.foldl_cons]
    rw [Range.update_activated r h x, ih _ rfl]

/-- C4: the first value applied to a default `Range` activates it and sets
both bounds to that value; after a whole sequence the bounds are the max and
min of the sequence; and updating twice with the same value equals updating
once. -/
theorem range_update_first_extremes_idempotent (v w : ℝ) (vs : List ℝ) (r : Range) :
    Range.default.update v = { activated := true, highest := v, lowest := v }
    ∧ ((v :: vs).foldl Range.update Range.default).highest = vs.foldl max v
    ∧ ((v :: vs).foldl Range.update Range.default).lowest = vs.foldl min v
    ∧ (r.update w).update w = r.update w := by
  have h0 : Range.default.update v
      = ({ activated := true, highest := v, lowest := v } : Range) := rfl
  refine ⟨h0, ?_, ?_, ?_⟩
  · rw [List.foldl_cons, h0, foldl_range_update_activated vs _ rfl]
  · rw [List.foldl_cons, h0, foldl_range_update_activated vs _ rfl]
  · obtain ⟨a, hi, lo⟩ := r
    cases a
    · have h1 : Range.update ⟨false, hi, lo⟩ w
          = ({ activated := true, highest := w, lowest := w } : Range) := rfl
      rw [h1, Range.update_activated _ rfl w]
      simp
    · rw [Range.update_activated ⟨true, hi, lo⟩ rfl w,
        Range.update_activated _ rfl w]
      simp [max_assoc, min_assoc]

/-- Helper: one Welford step turns the closed-form running mean for (n, s1)
into the one for (n+1, s1+x). -/
lemma step_mean_eq (n : ℕ) (s1 x : ℝ) (h0 : n = 0 → s1 = 0) :
    WelfordOnline.calculate_mean (meanOf n s1) x (n + 1) = meanOf (n + 1) (s1 + x) := by
  rcases Nat.eq_zero_or_pos n with hn | hn
  · subst hn
    have h1 : s1 = 0 := h0 rfl
    subst h1
    simp [WelfordOnline.calculate_mean, meanOf]
  · have hne : n ≠ 0 := Nat.pos_iff_ne_zero.mp hn
    have hnR : (n : ℝ) ≠ 0 := Nat.cast_ne_zero.mpr hne
    have hn1R : ((n : ℝ) + 1) ≠ 0 := by positivity
    simp only [WelfordOnline.calculate_mean, meanOf, if_neg hne,
      if_neg (Nat.succ_ne_zero n)]
    push_cast
    field_simp
    ring

/-- Helper: one Welford step turns the closed-form M2 for (n, s1, s2) into
the one for (n+1, s1+x, s2+x²). -/
lemma step_m2_eq (n : ℕ) (s1 s2 x : ℝ) (h0 : n = 0 → s1 = 0 ∧ s2 = 0) :
    WelfordOnline.calculate_recurrence_relation_m (m2Of n s1 s2) (meanOf n s1) x
        (meanOf (n + 1) (s1 + x))
      = m2Of (n + 1) (s1 + x) (s2 + x ^ 2) := by
  rcases Nat.eq_zero_or_pos n with hn | hn
  · subst hn
    obtain ⟨h1, h2⟩ := h0 rfl
    subst h1
    subst h2
    simp [WelfordOnline.calculate_recurrence_relation_m, m2Of, meanOf]
  · have hne : n ≠ 0 := Nat.pos_iff_ne_zero.mp hn
    have hnR : (n : ℝ) ≠ 0 := Nat.cast_ne_zero.mpr hne
    have hn1R : ((n : ℝ) + 1) ≠ 0 := by positivity
    simp only [WelfordOnline.calculate_recurrence_relation_m, m2Of, meanOf,
      if_neg hne, if_neg (Nat.succ_ne_zero n)]
    push_cast
    field_simp
    ring

/-- Helper: invariant of the streaming Welford fold — the count, mean and M2
stay in closed form over the running sums, variance stays M2/count, and
std-dev stays √variance. -/
lemma welford_fold_invariant :
    ∀ (xs : List ℝ) (n : ℕ) (s1 s2 : ℝ) (d : Dispersion),
      (n = 0 → s1 = 0 ∧ s2 = 0) →
      d.recurrence_relation_m = m2Of n s1 s2 →
      (n ≠ 0 → d.variance = d.recurrence_relation_m / n) →
      (n ≠ 0 → d.std_dev = Real.sqrt d.variance) →
      (xs.foldl welfordStep ⟨n, meanOf n s1, d⟩).count = n + xs.length
      ∧ (xs.foldl welfordStep ⟨n, meanOf n s1, d⟩).mean
          = meanOf (n + xs.length) (s1 + xs.sum)
      ∧ (xs.foldl welfordStep ⟨n, meanOf n s1, d⟩).dispersion.recurrence_relation_m
          = m2Of (n + xs.length) (s1 + xs.sum) (s2 + (xs.map fun y => y ^ 2).sum)
      ∧ (n + xs.length ≠ 0 →
          (xs.foldl welfordStep ⟨n, meanOf n s1, d⟩).dispersion.variance
            = (xs.foldl welfordStep ⟨n, meanOf n s1, d⟩).dispersion.recurrence_relation_m
                / ((n + xs.length : ℕ) : ℝ))
      ∧ (n + xs.length ≠ 0 →
          (xs.foldl welfordStep ⟨n, meanOf n s1, d⟩).dispersion.std_dev
            = Real.sqrt (xs.foldl welfordStep ⟨n, meanOf n s1, d⟩).dispersion.variance) := by
  intro xs
  induction xs with
  | nil =>
    intro n s1 s2 d h0 hm hv hs
    simp only [List.foldl_nil, List.length_nil, List.sum_nil, List.map_nil,
      Nat.add_zero, add_zero]
    exact ⟨trivial, trivial, hm, hv, hs⟩
  | cons x xs ih =>
    intro n s1 s2 d h0 hm hv hs
    have hmean := step_mean_eq n s1 x (fun h => (h0 h).1)
    have hstep : welfordStep ⟨n, meanOf n s1, d⟩ x
        = ⟨n + 1, meanOf (n + 1) (s1 + x),
           d.update (meanOf n s1) (meanOf (n + 1) (s1 + x)) x (n + 1)⟩ := by
      simp [welfordStep, hmean]
    rw [List.foldl_cons, hstep]
    set d' := d.update (meanOf n s1) (meanOf (n + 1) (s1 + x)) x (n + 1) with hd'
    have hm' : d'.recurrence_relation_m = m2Of (n + 1) (s1 + x) (s2 + x ^ 2) := by
      have hrec := step_m2_eq n s1 s2 x h0
      simp only [hd', Dispersion.update]
      rw [hm]
      exact hrec
    have hv' : d'.variance
        = d'.recurrence_relation_m / ((n + 1 : ℕ) : ℝ) := by
      simp [hd', Dispersion.update, WelfordOnline.calculate_population_variance]
    have hs' : d'.std_dev = Real.sqrt d'.variance := by
      simp [hd', Dispersion.update]
    have H := ih (n + 1) (s1 + x) (s2 + x ^ 2) d'
      (fun h => absurd h (Nat.succ_ne_zero n)) hm' (fun _ => hv') (fun _ => hs')
    obtain ⟨H1, H2, H3, H4, H5⟩ := H
    have e1 : n + (x :: xs).length = (n + 1) + xs.length := by
      simp [List.length_cons]
      omega
    have e2 : s1 + (x :: xs).sum = (s1 + x) + xs.sum := by
      rw [List.sum_cons]
      ring
    have e3 : s2 + ((x :: xs).map fun y => y ^ 2).sum
        = (s2 + x ^ 2) + (xs.map fun y => y ^ 2).sum := by
      simp [List.map_cons, List.sum_cons]
      ring
    refine ⟨?_, ?_, ?_, ?_, ?_⟩
    · rw [H1, e1]
    · rw [H2, e1, e2]
    · rw [H3, e1, e2, e3]
    · intro _
      rw [H4 (by omega), e1]
    · intro _
      exact H5 (by omega)

/-- Helper: expansion of a sum of squared deviations. -/
lemma sum_sq_dev (xs : List ℝ) (b : ℝ) :
    (xs.map fun y => (y - b) ^ 2).sum
      = (xs.map fun y => y ^ 2).sum - 2 * b * xs.sum + xs.length * b ^ 2 := by
  induction xs with
  | nil => simp
  | cons x xs ih =>
    simp only [List.map_cons, List.sum_cons, List.length_cons, ih]
    push_cast
    ring

/-- C5: `Dispersion.update` implements the Welford streaming recurrence
(M2ₙ = M2ₙ₋₁ + (xₙ − μₙ₋₁)(xₙ − μₙ), variance = M2ₙ/n, std-dev = √variance),
and for every non-empty dataset the streaming mean equals the naive mean and
the streaming variance equals the naive population variance — exactly in this
real-number embedding of f64, hence in particular within 1e-10. -/
theorem dispersion_update_welford :
    (∀ (d : Dispersion) (prev_mean new_mean new_value : ℝ) (value_count : ℕ),
      (d.update prev_mean new_mean new_value value_count).recurrence_relation_m
        = d.recurrence_relation_m + (new_value - prev_mean) * (new_value - new_mean)
      ∧ (d.update prev_mean new_mean new_value value_count).variance
        = (d.update prev_mean new_mean new_value value_count).recurrence_relation_m
            / value_count
      ∧ (d.update prev_mean new_mean new_value value_count).std_dev
        = Real.sqrt (d.update prev_mean new_mean new_value value_count).variance)
    ∧ (∀ (x : ℝ) (xs : List ℝ),
      (welfordRun (x :: xs)).mean = naiveMean (x :: xs)
      ∧ (welfordRun (x :: xs)).dispersion.variance = naivePopVariance (x :: xs)
      ∧ |(welfordRun (x :: xs)).mean - naiveMean (x :: xs)| ≤ 1e-10
      ∧ |(welfordRun (x :: xs)).dispersion.variance - naivePopVariance (x :: xs)|
          ≤ 1e-10) := by
  constructor
  · intro d pm nm nv c
    refine ⟨?_, ?_, ?_⟩ <;>
      simp [Dispersion.update, WelfordOnline.calculate_recurrence_relation_m,
        WelfordOnline.calculate_population_variance]
  · intro x xs
    have hinit : (⟨0, meanOf 0 0, Dispersion.default⟩ : WelfordState) = welfordInit := by
      simp [welfordInit, meanOf]
    have H := welford_fold_invariant (x :: xs) 0 0 0 Dispersion.default
      (fun _ => ⟨rfl, rfl⟩) (by simp [Dispersion.default, m2Of])
      (fun h => absurd rfl h) (fun h => absurd rfl h)
    rw [hinit] at H
    obtain ⟨H1, H2, H3, H4, H5⟩ := H
    have hL : (x :: xs).length ≠ 0 := by simp
    have hLR : ((x :: xs).length : ℝ) ≠ 0 := Nat.cast_ne_zero.mpr hL
    have hmean : (welfordRun (x :: xs)).mean = naiveMean (x :: xs) := by
      show ((x :: xs).foldl welfordStep welfordInit).mean = naiveMean (x :: xs)
      rw [H2]
      simp [meanOf, naiveMean, hL]
    have hvar : (welfordRun (x :: xs)).dispersion.variance
        = naivePopVariance (x :: xs) := by
      show ((x :: xs).foldl welfordStep welfordInit).dispersion.variance
        = naivePopVariance (x :: xs)
      rw [H4 (by simp), H3]
      simp only [Nat.zero_add, zero_add, m2Of, if_neg hL]
      unfold naivePopVariance
      rw [sum_sq_dev (x :: xs) (naiveMean (x :: xs))]
      unfold naiveMean
      field_simp
      ring
    refine ⟨hmean, hvar, ?_, ?_⟩
    · rw [hmean]
      simp
      norm_num
    · rw [hvar]
      simp
      norm_num

/-- C6: on `Command::Terminate` the engine first sends ExitPosition to every
trader, then sleeps the one-second grace period, then sends Terminate to
every trader, and the command loop breaks; in the emitted send sequence every
Terminate send comes after every ExitPosition send. -/
theorem terminate_broadcast_order (txs : List Market) (msg : String) :
    handleCommand txs (Command.Terminate msg) = (terminate_traders txs msg, true)
    ∧ ∃ pre post,
        pre = exit_all_positions txs ++ [EngineAction.sleepSecs 1]
        ∧ post = txs.map (fun m => EngineAction.sendCommand m (Command.Terminate msg))
        ∧ terminate_traders txs msg = pre ++ post
        ∧ (∀ m ∈ txs, EngineAction.sendCommand m (Command.ExitPosition m) ∈ pre)
        ∧ (∀ a ∈ pre, isTerminateSend a = false)
        ∧ (∀ m ∈ txs, EngineAction.sendCommand m (Command.Terminate msg) ∈ post)
        ∧ (∀ a ∈ post, isTerminateSend a = true ∧ isExitPositionSend a = false) := by
  refine ⟨rfl,
    exit_all_positions txs ++ [EngineAction.sleepSecs 1],
    txs.map (fun m => EngineAction.sendCommand m (Command.Terminate msg)),
    rfl, rfl, ?_, ?_, ?_, ?_, ?_⟩
  · simp [terminate_traders, List.append_assoc]
  · intro m hm
    exact List.mem_append_left _
      (List.mem_map_of_mem (fun m => EngineAction.sendCommand m (Command.ExitPosition m)) hm)
  · intro a ha
    rcases List.mem_append.mp ha with h | h
    · obtain ⟨m, _, rfl⟩ := List.mem_map.mp h
      rfl
    · rw [List.mem_singleton.mp h]
      rfl
  · intro m hm
    exact List.mem_map_of_mem (fun m => EngineAction.sendCommand m (Command.Terminate msg)) hm
  · intro a ha
    obtain ⟨m, _, rfl⟩ := List.mem_map.mp ha
    exact ⟨rfl, rfl⟩

/-- C6 witness: the broadcast order instantiated at a concrete two-market
engine, with the trace evaluated. -/
theorem terminate_broadcast_order_witness :
    terminate_traders
        [Market.mk "BINANCE" "ETH-USD", Market.mk "BINANCE" "BTC-USD"] "bye"
      = [EngineAction.sendCommand (Market.mk "BINANCE" "ETH-USD")
            (Command.ExitPosition (Market.mk "BINANCE" "ETH-USD")),
         EngineAction.sendCommand (Market.mk "BINANCE" "BTC-USD")
            (Command.ExitPosition (Market.mk "BINANCE" "BTC-USD")),
         EngineAction.sleepSecs 1,
         EngineAction.sendCommand (Market.mk "BINANCE" "ETH-USD")
            (Command.Terminate "bye"),
         EngineAction.sendCommand (Market.mk "BINANCE" "BTC-USD")
            (Command.Terminate "bye")]
    ∧ (∃ pre post,
        pre = exit_all_positions
            [Market.mk "BINANCE" "ETH-USD", Market.mk "BINANCE" "BTC-USD"]
          ++ [EngineAction.sleepSecs 1]
        ∧ post = [Market.mk "BINANCE" "ETH-USD",
                   Market.mk "BINANCE" "BTC-USD"].map
            (fun m => EngineAction.sendCommand m (Command.Terminate "bye"))
        ∧ terminate_traders
            [Market.mk "BINANCE" "ETH-USD", Market.mk "BINANCE" "BTC-USD"] "bye"
          = pre ++ post
        ∧ (∀ m ∈ [Market.mk "BINANCE" "ETH-USD", Market.mk "BINANCE" "BTC-USD"],
            EngineAction.sendCommand m (Command.ExitPosition m) ∈ pre)
        ∧ (∀ a ∈ pre, isTerminateSend a = false)
        ∧ (∀ m ∈ [Market.mk "BINANCE" "ETH-USD", Market.mk "BINANCE" "BTC-USD"],
            EngineAction.sendCommand m (Command.Terminate "bye") ∈ post)
        ∧ (∀ a ∈ post, isTerminateSend a = true ∧ isExitPositionSend a = false)) :=
  ⟨by decide,
   (terminate_broadcast_order
      [Market.mk "BINANCE" "ETH-USD", Market.mk "BINANCE" "BTC-USD"] "bye").2⟩

/-- C7: whenever some loop input makes the command loop exit (traders
stopped, Terminate received, or sender dropped), the engine produces a
summary phase output: it uses the inner portfolio even when the mutex is
poisoned, and emits exactly one summary line per market of the trader
command map (the statistic itself whenever `get_statistics` succeeds). -/
theorem engine_run_emits_summary {π St ε : Type} (inputs : List LoopInput)
    (lock : LockResult π) (txs : List Market)
    (get_statistics : π → String → Except ε St) (p : π) (msg : String) :
    lockRecover (LockResult.poisoned p) = p
    ∧ lockRecover (LockResult.ok p) = p
    ∧ loopBreaks LoopInput.tradersStopped = true
    ∧ loopBreaks (LoopInput.command none) = true
    ∧ loopBreaks (LoopInput.command (some (Command.Terminate msg))) = true
    ∧ (inputs.any loopBreaks = true →
        ∃ out, engineRun inputs lock txs get_statistics = some out
          ∧ out.1 = lockRecover lock
          ∧ out.2.map summaryMarketId = txs.map Market.market_id
          ∧ (∀ m s, m ∈ txs →
              get_statistics (lockRecover lock) m.market_id = Except.ok s →
              SummaryOutput.printed m.market_id s ∈ out.2))
    ∧ (inputs.any loopBreaks = false →
        engineRun inputs lock txs get_statistics = none) := by
  refine ⟨rfl, rfl, rfl, rfl, rfl, ?_, ?_⟩
  · intro hbreak
    refine ⟨engineFinalise lock txs get_statistics, ?_, rfl, ?_, ?_⟩
    · simp [engineRun, hbreak]
    · simp only [engineFinalise, List.map_map]
      refine List.map_congr_left ?_
      intro m _
      cases h : get_statistics (lockRecover lock) m.market_id <;>
        simp [summaryMarketId, h]
    · intro m s hm hget
      simp only [engineFinalise]
      refine List.mem_map.mpr ⟨m, hm, ?_⟩
      rw [hget]
  · intro hnone
    simp [engineRun, hnone]

/-- C7 witness: a Terminate input breaks the loop of a one-market engine
whose portfolio mutex is poisoned; the summary is produced from the inner
portfolio. -/
theorem engine_run_emits_summary_witness :
    ∃ out, engineRun [LoopInput.command (some (Command.Terminate "stop"))]
        (LockResult.poisoned (42 : ℕ)) [Market.mk "BINANCE" "ETH-USD"]
        (fun (_ : ℕ) (_ : String) => (Except.ok 7 : Except Unit ℕ)) = some out
      ∧ out.1 = lockRecover (LockResult.poisoned (42 : ℕ))
      ∧ out.2.map summaryMarketId
          = [Market.mk "BINANCE" "ETH-USD"].map Market.market_id
      ∧ (∀ m s, m ∈ [Market.mk "BINANCE" "ETH-USD"] →
          (fun (_ : ℕ) (_ : String) => (Except.ok 7 : Except Unit ℕ))
              (lockRecover (LockResult.poisoned (42 : ℕ))) m.market_id
            = Except.ok s →
          SummaryOutput.printed m.market_id s ∈ out.2) :=
  (engine_run_emits_summary [LoopInput.command (some (Command.Terminate "stop"))]
      (LockResult.poisoned (42 : ℕ)) [Market.mk "BINANCE" "ETH-USD"]
      (fun _ _ => (Except.ok 7 : Except Unit ℕ)) 42 "stop").2.2.2.2.2.1 rfl

/-- C8: a `LiveCandleHandler` built by `new` has `can_continue = false` for
every configuration, so `should_continue()` is false immediately after
construction and a trader driven by it does not consume any market data. -/
theorem live_candle_handler_starts_stopped {ClientConfig Stream : Type}
    (cfg : LiveConfig ClientConfig) (data_stream : Stream) (terminated : Bool) :
    (LiveCandleHandler.new cfg data_stream).can_continue = false
    ∧ (LiveCandleHandler.new cfg data_stream).should_continue = false
    ∧ traderProceeds terminated (LiveCandleHandler.new cfg data_stream) = false := by
  refine ⟨rfl, rfl, ?_⟩
  simp [traderProceeds, LiveCandleHandler.should_continue, LiveCandleHandler.new]

end Barter
